import Mathlib

/-!
Shallow embedding of the YouTube-API helper repository (src/videos.py,
src/comments.py, src/channel.py).

Network interaction is modelled by passing the sequence of HTTP responses the
server would produce: a paginated loop consumes one response per request, and
the one-shot batch call receives its single response as an argument.  The
`time.sleep` pause and the `print` progress lines have no observable effect on
the returned data and are not modelled.  Python `dict` results are modelled as
association lists in insertion order.
-/

namespace DAJobs

/-- A Python value passed where a `duration` string is expected:
`None`, an actual `str`, or any non-string value (which the
`isinstance(duration, str)` guard in `parse_duration_to_seconds` rejects). -/
inductive PyValue where
  | noneV
  | str (s : String)
  | other
  deriving DecidableEq

/-- Numeric value of a list of decimal digit characters, most significant
first (the value `int()` gives to a digit-run captured by the regex). -/
def digitsVal (ds : List Char) : Nat :=
  ds.foldl (fun acc c => acc * 10 + (c.toNat - 48)) 0

/-- Maximal digit run at the head of a character list, together with the
rest: the greedy behaviour of a leading regex group of one-or-more digits. -/
def takeDigits : List Char → List Char × List Char
  | [] => ([], [])
  | c :: cs =>
    if c.isDigit then
      let p := takeDigits cs
      (c :: p.1, p.2)
    else ([], c :: cs)

/-- One optional regex group of the digits-then-unit-letter shape.  The group
matches exactly when a non-empty digit run sits at the current position and is
followed by the unit letter; otherwise it matches the empty string and
consumes nothing (the greedy one-or-more digit quantifier cannot split a digit
run, so no backtracking beyond this case analysis is possible). -/
def matchUnit (unit : Char) (cs : List Char) : Option Nat × List Char :=
  let p := takeDigits cs
  match p.2 with
  | [] => (none, cs)
  | u :: rest => if p.1 ≠ [] ∧ u = unit then (some (digitsVal p.1), rest) else (none, cs)

/-- Embedding of `parse_duration_to_seconds` (src/videos.py lines 37-76).
The Python regex is anchored at the start only, all three groups are
optional, and the falsy/`isinstance` guard sends `None`, `""` and non-string
values to `None`. -/
def parse_duration_to_seconds (duration : PyValue) : Option Nat :=
  match duration with
  | .noneV => none
  | .other => none
  | .str s =>
    if s = "" then none
    else
      match s.data with
      | 'P' :: 'T' :: rest =>
        let ph := matchUnit 'H' rest
        let pm := matchUnit 'M' ph.2
        let ps := matchUnit 'S' pm.2
        some ((ph.1.getD 0) * 3600 + (pm.1.getD 0) * 60 + ps.1.getD 0)
      | _ => none

/-- The list of indices produced by Python `range(start, stop, step)` for a
non-negative step (`range` with step 0 raises in Python; modelled as []). -/
def pyRange (start stop step : Nat) : List Nat :=
  if step = 0 then []
  else (List.range ((stop - start + step - 1) / step)).map (fun k => start + k * step)

/-- Embedding of `chunked` (src/videos.py lines 82-100): the generator
`for i in range(0, len(lst), size): yield lst[i : i + size]`, returned as the
list of all yielded slices. -/
def chunked (lst : List String) (size : Nat) : List (List String) :=
  (pyRange 0 lst.length size).map (fun i => (lst.drop i).take size)

/-- Concatenation of a list of lists, in order. -/
def joinAll {α : Type} : List (List α) → List α
  | [] => []
  | l :: ls => l ++ joinAll ls

/-- The `statistics` object of one item of a `videos.list` response; a field
the upstream omits (disabled counts) is `none`.  `statistics.get(k, 0)` then
yields the integer 0 for it. -/
structure RawStatistics where
  viewCount : Option Nat
  likeCount : Option Nat
  commentCount : Option Nat
  deriving DecidableEq

/-- The `contentDetails` object of one item: `content.get("duration")` is
`None` when the key is absent, and in general any Python value. -/
structure RawContentDetails where
  duration : PyValue
  deriving DecidableEq

/-- One raw item of a `videos.list` response body. -/
structure RawVideoItem where
  id : String
  statistics : RawStatistics
  contentDetails : RawContentDetails
  deriving DecidableEq

/-- The normalized per-video record built by `fetch_video_statistics_batch`. -/
structure VideoStats where
  view_count : Nat
  like_count : Nat
  comment_count : Nat
  duration_sec : Option Nat
  video_type : String
  deriving DecidableEq

/-- The body of the per-item loop of `fetch_video_statistics_batch`
(src/videos.py lines 156-187): default the three counts to 0, parse the
duration, and classify the video by the two 60s/1200s thresholds. -/
def normalizeVideoItem (item : RawVideoItem) : String × VideoStats :=
  let view_count := item.statistics.viewCount.getD 0
  let like_count := item.statistics.likeCount.getD 0
  let comment_count := item.statistics.commentCount.getD 0
  let duration_sec := parse_duration_to_seconds item.contentDetails.duration
  let video_type :=
    match duration_sec with
    | none => "UNKNOWN"
    | some d => if d < 60 then "SHORT" else if d < 1200 then "LONG" else "STREAM"
  (item.id,
   { view_count := view_count
     like_count := like_count
     comment_count := comment_count
     duration_sec := duration_sec
     video_type := video_type })

/-- The single HTTP response a `videos.list` batch request would receive. -/
structure BatchResponse where
  status_code : Nat
  text : String
  items : List RawVideoItem
  deriving DecidableEq

/-- Embedding of `fetch_video_statistics_batch` (src/videos.py lines
106-189).  `api_key` is the value of the `YOUTUBE_API_KEY` environment
variable (`none` when unset), `resp` the response the one request would get.
The result pairs the association list standing for the returned dict with
the number of HTTP requests performed; a raised `RuntimeError` is `.error`. -/
def fetch_video_statistics_batch (video_ids : List String) (api_key : Option String)
    (resp : BatchResponse) : Except String (List (String × VideoStats) × Nat) :=
  if video_ids = [] then .ok ([], 0)
  else
    match api_key with
    | none => .error "YOUTUBE_API_KEY not set. Check your .env and load_dotenv()."
    | some _ =>
      if resp.status_code ≠ 200 then
        .error ("HTTP " ++ toString resp.status_code ++
                " while fetching video statistics | " ++ resp.text)
      else .ok (resp.items.map normalizeVideoItem, 1)

/-- One item of a `commentThreads` page, flattened: `comment_id` is
`snippet.topLevelComment.id`, the other three fields come from
`snippet.topLevelComment.snippet`; every `get` defaults to `None`. -/
structure CommentItem where
  comment_id : Option String
  textDisplay : Option String
  likeCount : Option Nat
  publishedAt : Option String
  deriving DecidableEq

/-- One HTTP response of the `commentThreads` pagination: status code,
whether the decoded body has an "error" key, its `items`, and its
`nextPageToken` (absent key modelled as `none`). -/
structure CommentsPage where
  status_code : Nat
  hasError : Bool
  items : List CommentItem
  nextPageToken : Option String
  deriving DecidableEq

/-- The record `fetch_all_comments` appends for one comment thread item. -/
structure CommentRecord where
  video_id : String
  comment_id : Option String
  comment_text : Option String
  like_count : Option Nat
  published_at : Option String
  deriving DecidableEq

/-- Truthiness of the Python `page_token` after `data.get("nextPageToken")`:
`if not page_token: break` stops on `None` and on the empty string. -/
def tokenPresent : Option String → Bool
  | none => false
  | some t => if t = "" then false else true

/-- The record built in the item loop of `fetch_all_comments`
(src/comments.py lines 105-116). -/
def extractCommentRecord (video_id : String) (item : CommentItem) : CommentRecord :=
  { video_id := video_id
    comment_id := item.comment_id
    comment_text := item.textDisplay
    like_count := item.likeCount
    published_at := item.publishedAt }

/-- The `while True` pagination loop of `fetch_all_comments` (src/comments.py
lines 73-125), consuming one prepared response per request.  `acc` is the
running `comments` list and `fetches` the number of requests issued so far;
exhausting the prepared responses returns the accumulation (never reached
under the well-formedness hypotheses of the theorems below). -/
def commentsLoop (video_id : String) :
    List CommentsPage → List CommentRecord → Nat → List CommentRecord × Nat
  | [], acc, fetches => (acc, fetches)
  | page :: rest, acc, fetches =>
    if page.status_code ≠ 200 then (acc, fetches + 1)
    else if page.hasError then (acc, fetches + 1)
    else if page.items = [] then (acc, fetches + 1)
    else
      let acc2 := acc ++ page.items.map (extractCommentRecord video_id)
      if tokenPresent page.nextPageToken then commentsLoop video_id rest acc2 (fetches + 1)
      else (acc2, fetches + 1)

/-- Embedding of `fetch_all_comments` (src/comments.py lines 37-127):
`_get_api_key()` first (raises when the key is absent), then the loop. -/
def fetch_all_comments (video_id : String) (api_key : Option String)
    (pages : List CommentsPage) : Except String (List CommentRecord × Nat) :=
  match api_key with
  | none => .error "YOUTUBE_API_KEY not set. Check your .env and load_dotenv()."
  | some _ => .ok (commentsLoop video_id pages [] 0)

/-- One item of a `playlistItems` page: `videoId` is
`snippet.resourceId.videoId` (absent key gives `None`), the other fields come
from `snippet`. -/
structure PlaylistItem where
  videoId : Option String
  title : Option String
  publishedAt : Option String
  deriving DecidableEq

/-- One HTTP response of the `playlistItems` pagination. -/
structure PlaylistPage where
  status_code : Nat
  items : List PlaylistItem
  nextPageToken : Option String
  deriving DecidableEq

/-- The record `get_videos_from_uploads_playlist` appends for one video. -/
structure VideoSummary where
  channel_label : String
  channel_handle : String
  video_id : String
  video_title : Option String
  published_at : Option String
  deriving DecidableEq

/-- The item step of `get_videos_from_uploads_playlist` (src/channel.py lines
169-183): `if not video_id: continue` skips an item whose `videoId` is
`None` or the empty string; otherwise a summary record is built. -/
def extractVideoSummary (channel_label channel_handle : String)
    (item : PlaylistItem) : Option VideoSummary :=
  match item.videoId with
  | none => none
  | some v =>
    if v = "" then none
    else some
      { channel_label := channel_label
        channel_handle := channel_handle
        video_id := v
        video_title := item.title
        published_at := item.publishedAt }

/-- The `while True` pagination loop of `get_videos_from_uploads_playlist`
(src/channel.py lines 147-192), consuming one prepared response per request;
unlike the comments loop it has no body-level error check, and skipped items
simply contribute nothing to the accumulation. -/
def videosLoop (channel_label channel_handle : String) :
    List PlaylistPage → List VideoSummary → Nat → List VideoSummary × Nat
  | [], acc, fetches => (acc, fetches)
  | page :: rest, acc, fetches =>
    if page.status_code ≠ 200 then (acc, fetches + 1)
    else if page.items = [] then (acc, fetches + 1)
    else
      let acc2 := acc ++ page.items.filterMap (extractVideoSummary channel_label channel_handle)
      if tokenPresent page.nextPageToken then
        videosLoop channel_label channel_handle rest acc2 (fetches + 1)
      else (acc2, fetches + 1)

/-- Embedding of `get_videos_from_uploads_playlist` (src/channel.py lines
109-194): `_get_api_key()` first, then the loop. -/
def get_videos_from_uploads_playlist (uploads_playlist_id channel_label channel_handle : String)
    (api_key : Option String) (pages : List PlaylistPage) :
    Except String (List VideoSummary × Nat) :=
  match api_key with
  | none => .error "YOUTUBE_API_KEY not set. Check your .env and load_dotenv()."
  | some _ => .ok (videosLoop channel_label channel_handle pages [] 0)

/-- Rendering of one optional duration field: its digit run followed by its
unit letter, or nothing when the field is absent. -/
def durField : Option (List Char) → Char → List Char
  | none, _ => []
  | some ds, u => ds ++ [u]

/-- A well-formed `PT[nH][nM][nS]` duration string assembled from optional
digit runs for the hours, minutes and seconds fields. -/
def durationString (hd md sd : Option (List Char)) : String :=
  ⟨'P' :: 'T' :: (durField hd 'H' ++ durField md 'M' ++ durField sd 'S')⟩

/-- Numeric value of an optional digit run, an absent field read as 0. -/
def fieldVal : Option (List Char) → Nat
  | none => 0
  | some ds => digitsVal ds

/-- Shape of a character list on which an optional digits-then-`u` regex
group fails to match: empty, or a (possibly empty) digit run followed by a
non-digit character other than `u`. -/
def skipShape (u : Char) (l : List Char) : Prop :=
  l = [] ∨ ∃ ds c tl, l = ds ++ c :: tl ∧ (∀ x ∈ ds, x.isDigit = true) ∧
    c.isDigit = false ∧ c ≠ u

/-! ### Helper lemmas about the two pagination loops -/

lemma commentsLoop_cons_ok (video_id : String) (p : CommentsPage) (rest : List CommentsPage)
    (acc : List CommentRecord) (n : Nat)
    (h1 : p.status_code = 200) (h2 : p.hasError = false) (h3 : p.items ≠ [])
    (h4 : tokenPresent p.nextPageToken = true) :
    commentsLoop video_id (p :: rest) acc n =
      commentsLoop video_id rest (acc ++ p.items.map (extractCommentRecord video_id)) (n + 1) := by
  simp [commentsLoop, h1, h2, h3, h4]

lemma commentsLoop_cons_last (video_id : String) (p : CommentsPage) (rest : List CommentsPage)
    (acc : List CommentRecord) (n : Nat)
    (h1 : p.status_code = 200) (h2 : p.hasError = false) (h3 : p.items ≠ [])
    (h4 : tokenPresent p.nextPageToken = false) :
    commentsLoop video_id (p :: rest) acc n =
      (acc ++ p.items.map (extractCommentRecord video_id), n + 1) := by
  simp [commentsLoop, h1, h2, h3, h4]

lemma commentsLoop_cons_bad (video_id : String) (p : CommentsPage) (rest : List CommentsPage)
    (acc : List CommentRecord) (n : Nat)
    (hbad : p.status_code ≠ 200 ∨ p.hasError = true) :
    commentsLoop video_id (p :: rest) acc n = (acc, n + 1) := by
  rcases hbad with h | h
  · simp [commentsLoop, h]
  · by_cases h1 : p.status_code = 200
    · simp [commentsLoop, h1, h]
    · simp [commentsLoop, h1]

lemma commentsLoop_run (video_id : String) (front : List CommentsPage) (plast : CommentsPage)
    (hf : ∀ p ∈ front, (p.status_code = 200 ∧ p.hasError = false ∧ p.items ≠ []) ∧
      tokenPresent p.nextPageToken = true)
    (h1 : plast.status_code = 200) (h2 : plast.hasError = false) (h3 : plast.items ≠ [])
    (h4 : tokenPresent plast.nextPageToken = false) :
    ∀ (acc : List CommentRecord) (n : Nat),
      commentsLoop video_id (front ++ [plast]) acc n =
        (acc ++ joinAll ((front ++ [plast]).map fun p =>
            p.items.map (extractCommentRecord video_id)),
         n + front.length + 1) := by
  induction front with
  | nil =>
    intro acc n
    rw [List.nil_append, commentsLoop_cons_last video_id plast [] acc n h1 h2 h3 h4]
    simp [joinAll]
  | cons p front ih =>
    intro acc n
    have hp := hf p (List.mem_cons_self p front)
    rw [List.cons_append,
        commentsLoop_cons_ok video_id p _ acc n hp.1.1 hp.1.2.1 hp.1.2.2 hp.2,
        ih (fun q hq => hf q (List.mem_cons_of_mem p hq))]
    simp only [List.map_cons, joinAll, List.length_cons, Prod.mk.injEq, List.append_assoc]
    exact ⟨trivial, by omega⟩

lemma commentsLoop_bad_run (video_id : String) (front : List CommentsPage)
    (bad : CommentsPage) (rest : List CommentsPage)
    (hf : ∀ p ∈ front, (p.status_code = 200 ∧ p.hasError = false ∧ p.items ≠ []) ∧
      tokenPresent p.nextPageToken = true)
    (hbad : bad.status_code ≠ 200 ∨ bad.hasError = true) :
    ∀ (acc : List CommentRecord) (n : Nat),
      commentsLoop video_id (front ++ bad :: rest) acc n =
        (acc ++ joinAll (front.map fun p => p.items.map (extractCommentRecord video_id)),
         n + front.length + 1) := by
  induction front with
  | nil =>
    intro acc n
    rw [List.nil_append, commentsLoop_cons_bad video_id bad rest acc n hbad]
    simp [joinAll]
  | cons p front ih =>
    intro acc n
    have hp := hf p (List.mem_cons_self p front)
    rw [List.cons_append,
        commentsLoop_cons_ok video_id p _ acc n hp.1.1 hp.1.2.1 hp.1.2.2 hp.2,
        ih (fun q hq => hf q (List.mem_cons_of_mem p hq))]
    simp only [List.map_cons, joinAll, List.length_cons, Prod.mk.injEq, List.append_assoc]
    exact ⟨trivial, by omega⟩

lemma videosLoop_cons_ok (channel_label channel_handle : String) (p : PlaylistPage)
    (rest : List PlaylistPage) (acc : List VideoSummary) (n : Nat)
    (h1 : p.status_code = 200) (h3 : p.items ≠ [])
    (h4 : tokenPresent p.nextPageToken = true) :
    videosLoop channel_label channel_handle (p :: rest) acc n =
      videosLoop channel_label channel_handle rest
        (acc ++ p.items.filterMap (extractVideoSummary channel_label channel_handle)) (n + 1) := by
  simp [videosLoop, h1, h3, h4]

lemma videosLoop_cons_last (channel_label channel_handle : String) (p : PlaylistPage)
    (rest : List PlaylistPage) (acc : List VideoSummary) (n : Nat)
    (h1 : p.status_code = 200) (h3 : p.items ≠ [])
    (h4 : tokenPresent p.nextPageToken = false) :
    videosLoop channel_label channel_handle (p :: rest) acc n =
      (acc ++ p.items.filterMap (extractVideoSummary channel_label channel_handle), n + 1) := by
  simp [videosLoop, h1, h3, h4]

lemma videosLoop_cons_bad (channel_label channel_handle : String) (p : PlaylistPage)
    (rest : List PlaylistPage) (acc : List VideoSummary) (n : Nat)
    (hbad : p.status_code ≠ 200) :
    videosLoop channel_label channel_handle (p :: rest) acc n = (acc, n + 1) := by
  simp [videosLoop, hbad]

lemma videosLoop_run (channel_label channel_handle : String) (front : List PlaylistPage)
    (plast : PlaylistPage)
    (hf : ∀ p ∈ front, (p.status_code = 200 ∧ p.items ≠ []) ∧
      tokenPresent p.nextPageToken = true)
    (h1 : plast.status_code = 200) (h3 : plast.items ≠ [])
    (h4 : tokenPresent plast.nextPageToken = false) :
    ∀ (acc : List VideoSummary) (n : Nat),
      videosLoop channel_label channel_handle (front ++ [plast]) acc n =
        (acc ++ joinAll ((front ++ [plast]).map fun p =>
            p.items.filterMap (extractVideoSummary channel_label channel_handle)),
         n + front.length + 1) := by
  induction front with
  | nil =>
    intro acc n
    rw [List.nil_append, videosLoop_cons_last channel_label channel_handle plast [] acc n h1 h3 h4]
    simp [joinAll]
  | cons p front ih =>
    intro acc n
    have hp := hf p (List.mem_cons_self p front)
    rw [List.cons_append,
        videosLoop_cons_ok channel_label channel_handle p _ acc n hp.1.1 hp.1.2 hp.2,
        ih (fun q hq => hf q (List.mem_cons_of_mem p hq))]
    simp only [List.map_cons, joinAll, List.length_cons, Prod.mk.injEq, List.append_assoc]
    exact ⟨trivial, by omega⟩

lemma videosLoop_bad_run (channel_label channel_handle : String) (front : List PlaylistPage)
    (bad : PlaylistPage) (rest : List PlaylistPage)
    (hf : ∀ p ∈ front, (p.status_code = 200 ∧ p.items ≠ []) ∧
      tokenPresent p.nextPageToken = true)
    (hbad : bad.status_code ≠ 200) :
    ∀ (acc : List VideoSummary) (n : Nat),
      videosLoop channel_label channel_handle (front ++ bad :: rest) acc n =
        (acc ++ joinAll (front.map fun p =>
            p.items.filterMap (extractVideoSummary channel_label channel_handle)),
         n + front.length + 1) := by
  induction front with
  | nil =>
    intro acc n
    rw [List.nil_append, videosLoop_cons_bad channel_label channel_handle bad rest acc n hbad]
    simp [joinAll]
  | cons p front ih =>
    intro acc n
    have hp := hf p (List.mem_cons_self p front)
    rw [List.cons_append,
        videosLoop_cons_ok channel_label channel_handle p _ acc n hp.1.1 hp.1.2 hp.2,
        ih (fun q hq => hf q (List.mem_cons_of_mem p hq))]
    simp only [List.map_cons, joinAll, List.length_cons, Prod.mk.injEq, List.append_assoc]
    exact ⟨trivial, by omega⟩

/-- Tail-recursion accumulation: the loop starting from any `acc`/`fetches`
state is the fresh run shifted by that state. -/
lemma videosLoop_shift (channel_label channel_handle : String) (pages : List PlaylistPage) :
    ∀ (acc : List VideoSummary) (n : Nat),
      videosLoop channel_label channel_handle pages acc n =
        (acc ++ (videosLoop channel_label channel_handle pages [] 0).1,
         n + (videosLoop channel_label channel_handle pages [] 0).2) := by
  induction pages with
  | nil => intro acc n; simp [videosLoop]
  | cons p rest ih =>
    intro acc n
    by_cases h1 : p.status_code = 200
    · by_cases h3 : p.items = []
      · simp [videosLoop, h1, h3]
      · by_cases h4 : tokenPresent p.nextPageToken = true
        · rw [videosLoop_cons_ok channel_label channel_handle p rest acc n h1 h3 h4,
              videosLoop_cons_ok channel_label channel_handle p rest [] 0 h1 h3 h4,
              ih (acc ++ p.items.filterMap (extractVideoSummary channel_label channel_handle)) (n + 1),
              ih ([] ++ p.items.filterMap (extractVideoSummary channel_label channel_handle)) (0 + 1)]
          simp only [List.nil_append, Prod.mk.injEq, List.append_assoc]
          exact ⟨trivial, by omega⟩
        · have h4f : tokenPresent p.nextPageToken = false := by
            revert h4; cases tokenPresent p.nextPageToken <;> simp
          rw [videosLoop_cons_last channel_label channel_handle p rest acc n h1 h3 h4f,
              videosLoop_cons_last channel_label channel_handle p rest [] 0 h1 h3 h4f]
          simp
    · rw [videosLoop_cons_bad channel_label channel_handle p rest acc n h1,
          videosLoop_cons_bad channel_label channel_handle p rest [] 0 h1]
      simp

/-- Every non-empty prepared-response list costs the videos loop at least one
fetch. -/
lemma videosLoop_fetch_pos (channel_label channel_handle : String) (p : PlaylistPage)
    (rest : List PlaylistPage) :
    1 ≤ (videosLoop channel_label channel_handle (p :: rest) [] 0).2 := by
  by_cases h1 : p.status_code = 200
  · by_cases h3 : p.items = []
    · simp [videosLoop, h1, h3]
    · by_cases h4 : tokenPresent p.nextPageToken = true
      · rw [videosLoop_cons_ok channel_label channel_handle p rest [] 0 h1 h3 h4,
            videosLoop_shift channel_label channel_handle rest _ (0 + 1)]
        omega
      · have h4f : tokenPresent p.nextPageToken = false := by
          revert h4; cases tokenPresent p.nextPageToken <;> simp
        rw [videosLoop_cons_last channel_label channel_handle p rest [] 0 h1 h3 h4f]
  · rw [videosLoop_cons_bad channel_label channel_handle p rest [] 0 h1]

/-! ### Helper lemmas about joinAll and chunked -/

@[simp] lemma joinAll_nil {α : Type} : joinAll ([] : List (List α)) = [] := rfl

@[simp] lemma joinAll_cons {α : Type} (l : List α) (ls : List (List α)) :
    joinAll (l :: ls) = l ++ joinAll ls := rfl

lemma chunkCount_succ (n size : Nat) (hn : 0 < n) (hs : 0 < size) :
    (n + size - 1) / size = ((n - size) + size - 1) / size + 1 := by
  rcases le_or_lt size n with h | h
  · have e : n + size - 1 = ((n - size) + size - 1) + size := by omega
    rw [e, Nat.add_div_right _ hs]
  · have e1 : n + size - 1 = (n - 1) + size := by omega
    have e2 : n - size = 0 := by omega
    rw [e1, Nat.add_div_right _ hs, e2]
    have e3 : (0 : Nat) + size - 1 = size - 1 := by omega
    rw [e3, Nat.div_eq_of_lt (by omega), Nat.div_eq_of_lt (by omega)]

lemma pyRange_zero_cons (n size : Nat) (hn : 0 < n) (hs : 0 < size) :
    pyRange 0 n size = 0 :: (pyRange 0 (n - size) size).map (fun i => i + size) := by
  unfold pyRange
  rw [if_neg (by omega), if_neg (by omega)]
  simp only [Nat.sub_zero]
  rw [chunkCount_succ n size hn hs, List.range_succ_eq_map]
  simp only [List.map_cons, List.map_map]
  have hfun : ((fun k => 0 + k * size) ∘ Nat.succ) =
      ((fun i => i + size) ∘ fun k => 0 + k * size) := by
    funext k
    simp only [Function.comp, Nat.succ_mul]
    ring
  rw [hfun]
  simp

lemma chunked_cons (lst : List String) (size : Nat) (hne : lst ≠ []) (hs : 0 < size) :
    chunked lst size = lst.take size :: chunked (lst.drop size) size := by
  unfold chunked
  have hn : 0 < lst.length := List.length_pos.mpr hne
  rw [pyRange_zero_cons lst.length size hn hs]
  simp only [List.map_cons, List.map_map, List.drop_zero, List.length_drop]
  have hfun : ((fun i => (lst.drop i).take size) ∘ fun i => i + size) =
      (fun i => ((lst.drop size).drop i).take size) := by
    funext i
    simp [Function.comp, List.drop_drop, Nat.add_comm]
  rw [hfun]

lemma chunked_nil (size : Nat) : chunked [] size = [] := by
  unfold chunked pyRange
  by_cases h : size = 0
  · simp [h]
  · have hd : (0 - 0 + size - 1) / size = 0 := Nat.div_eq_of_lt (by omega)
    have hd2 : (size - 1) / size = 0 := Nat.div_eq_of_lt (by omega)
    simp [h, hd, hd2]

lemma chunked_join (size : Nat) (hs : 0 < size) :
    ∀ (fuel : Nat) (lst : List String), lst.length ≤ fuel →
      joinAll (chunked lst size) = lst := by
  intro fuel
  induction fuel with
  | zero =>
    intro lst h
    have : lst = [] := List.eq_nil_of_length_eq_zero (by omega)
    subst this
    simp [chunked_nil]
  | succ fuel ih =>
    intro lst h
    rcases eq_or_ne lst [] with rfl | hne
    · simp [chunked_nil]
    · rw [chunked_cons lst size hne hs, joinAll_cons,
          ih (lst.drop size) (by
            rw [List.length_drop]
            have := List.length_pos.mpr hne
            omega)]
      exact List.take_append_drop size lst

lemma chunked_length_le (lst : List String) (size : Nat) (c : List String)
    (hc : c ∈ chunked lst size) : c.length ≤ size := by
  unfold chunked at hc
  rcases List.mem_map.mp hc with ⟨i, _, rfl⟩
  simp [List.length_take]

/-! ### Claim theorems -/

/-- C8: for every identifier list and positive batch size, the chunks yielded
by `chunked` concatenate, in yield order, to exactly the input list (so they
are contiguous, non-overlapping, cover every element once, in order), each
chunk has length at most `size`, the empty input yields no chunks, and
`chunked ["a","b","c","d","e"] 2` is `[["a","b"],["c","d"],["e"]]`. -/
theorem chunked_partitions_input (lst : List String) (size : Nat) (hs : 0 < size) :
    joinAll (chunked lst size) = lst ∧
    (∀ c ∈ chunked lst size, c.length ≤ size) ∧
    chunked [] size = [] ∧
    chunked ["a", "b", "c", "d", "e"] 2 = [["a", "b"], ["c", "d"], ["e"]] := by
  exact ⟨chunked_join size hs lst.length lst le_rfl,
         fun c hc => chunked_length_le lst size c hc,
         chunked_nil size,
         rfl⟩

/-- Witness for C8 at the spec's concrete example. -/
theorem chunked_partitions_input_witness :
    0 < 2 ∧ joinAll (chunked ["a", "b", "c", "d", "e"] 2) = ["a", "b", "c", "d", "e"] :=
  ⟨by decide, (chunked_partitions_input ["a", "b", "c", "d", "e"] 2 (by decide)).1⟩

/-- C10: with an empty `video_ids` list, `fetch_video_statistics_batch`
returns the empty mapping with zero HTTP requests, for every state of the
`YOUTUBE_API_KEY` credential and every would-be response — in particular no
configuration error is raised when the credential is absent. -/
theorem empty_batch_short_circuits (api_key : Option String) (resp : BatchResponse) :
    fetch_video_statistics_batch [] api_key resp = .ok ([], 0) := rfl

/-- Witness for C10: credential absent, server in an error state. -/
theorem empty_batch_short_circuits_witness :
    fetch_video_statistics_batch [] none ⟨500, "quota exceeded", []⟩ = .ok ([], 0) :=
  empty_batch_short_circuits none ⟨500, "quota exceeded", []⟩

/-- C9: each numeric statistic field absent from a raw batch item is
normalized to the integer 0 in the output record. -/
theorem absent_counts_default_zero (item : RawVideoItem) :
    (item.statistics.viewCount = none → (normalizeVideoItem item).2.view_count = 0) ∧
    (item.statistics.likeCount = none → (normalizeVideoItem item).2.like_count = 0) ∧
    (item.statistics.commentCount = none → (normalizeVideoItem item).2.comment_count = 0) := by
  refine ⟨fun h => ?_, fun h => ?_, fun h => ?_⟩ <;> simp [normalizeVideoItem, h]

/-- Witness for C9 at the spec's concrete example: `viewCount` absent and
duration `"PT30S"` give `view_count = 0`, `duration_sec = 30`,
`video_type = "SHORT"`. -/
theorem absent_counts_default_zero_witness :
    (⟨"v", ⟨none, some 5, some 7⟩, ⟨PyValue.str "PT30S"⟩⟩ :
        RawVideoItem).statistics.viewCount = none ∧
    (normalizeVideoItem ⟨"v", ⟨none, some 5, some 7⟩, ⟨PyValue.str "PT30S"⟩⟩).2.view_count = 0 ∧
    (normalizeVideoItem ⟨"v", ⟨none, some 5, some 7⟩, ⟨PyValue.str "PT30S"⟩⟩).2.duration_sec =
      some 30 ∧
    (normalizeVideoItem ⟨"v", ⟨none, some 5, some 7⟩, ⟨PyValue.str "PT30S"⟩⟩).2.video_type =
      "SHORT" :=
  ⟨rfl,
   (absent_counts_default_zero ⟨"v", ⟨none, some 5, some 7⟩, ⟨PyValue.str "PT30S"⟩⟩).1 rfl,
   rfl, rfl⟩

/-- C5: the derived `video_type` of every raw batch item follows the
two-threshold classification: UNKNOWN on unknown duration, SHORT below 60s,
LONG from 60s up to but excluding 1200s, STREAM from 1200s. -/
theorem video_type_two_thresholds (item : RawVideoItem) :
    (parse_duration_to_seconds item.contentDetails.duration = none →
      (normalizeVideoItem item).2.video_type = "UNKNOWN") ∧
    (∀ d, parse_duration_to_seconds item.contentDetails.duration = some d →
      (d < 60 → (normalizeVideoItem item).2.video_type = "SHORT") ∧
      (60 ≤ d → d < 1200 → (normalizeVideoItem item).2.video_type = "LONG") ∧
      (1200 ≤ d → (normalizeVideoItem item).2.video_type = "STREAM")) := by
  constructor
  · intro h
    simp [normalizeVideoItem, h]
  · intro d h
    refine ⟨fun h1 => ?_, fun h1 h2 => ?_, fun h1 => ?_⟩
    · simp [normalizeVideoItem, h, h1]
    · have hn : ¬d < 60 := by omega
      simp [normalizeVideoItem, h, hn, h2]
    · have hn : ¬d < 60 := by omega
      have hn2 : ¬d < 1200 := by omega
      simp [normalizeVideoItem, h, hn, hn2]

/-- Witness for C5: a 30-minute video (1800s) is classified STREAM. -/
theorem video_type_two_thresholds_witness :
    parse_duration_to_seconds
        ((⟨"v", ⟨some 1, some 2, some 3⟩, ⟨PyValue.str "PT30M"⟩⟩ :
          RawVideoItem)).contentDetails.duration = some 1800 ∧
    1200 ≤ 1800 ∧
    (normalizeVideoItem ⟨"v", ⟨some 1, some 2, some 3⟩, ⟨PyValue.str "PT30M"⟩⟩).2.video_type =
      "STREAM" :=
  ⟨rfl, by omega,
   ((video_type_two_thresholds
      ⟨"v", ⟨some 1, some 2, some 3⟩, ⟨PyValue.str "PT30M"⟩⟩).2 1800 rfl).2.2 (by omega)⟩

/-- A string that does not start with the literal "PT" fails the anchored
regex and parses to the absence marker. -/
lemma parse_str_not_pt (s : String) (h : ∀ r : List Char, s.data ≠ 'P' :: 'T' :: r) :
    parse_duration_to_seconds (PyValue.str s) = none := by
  simp only [parse_duration_to_seconds]
  simp

/-- C6: `parse_duration_to_seconds` returns the absence marker, rather than
raising, on `None`, on any non-string value, on any string not matching the
anchored "PT" pattern, and in particular on the empty string. -/
theorem parse_duration_failure_yields_none (s : String)
    (h : ∀ r : List Char, s.data ≠ 'P' :: 'T' :: r) :
    parse_duration_to_seconds PyValue.noneV = none ∧
    parse_duration_to_seconds PyValue.other = none ∧
    parse_duration_to_seconds (PyValue.str s) = none ∧
    parse_duration_to_seconds (PyValue.str "") = none :=
  ⟨rfl, rfl, parse_str_not_pt s h, rfl⟩

/-- Witness for C6 at the concrete non-matching string "1H". -/
theorem parse_duration_failure_yields_none_witness :
    (∀ r : List Char, ("1H" : String).data ≠ 'P' :: 'T' :: r) ∧
    parse_duration_to_seconds (PyValue.str "1H") = none := by
  have h : ∀ r : List Char, ("1H" : String).data ≠ 'P' :: 'T' :: r := by
    intro r hr
    rw [show ("1H" : String).data = ['1', 'H'] from rfl] at hr
    injection hr with h1 _
    exact absurd h1 (by decide)
  exact ⟨h, (parse_duration_failure_yields_none "1H" h).2.2.1⟩

/-! ### Lemmas about the duration regex embedding -/

lemma takeDigits_append (ds r : List Char) (hds : ∀ c ∈ ds, c.isDigit = true)
    (hr : ∀ c tl, r = c :: tl → c.isDigit = false) :
    takeDigits (ds ++ r) = (ds, r) := by
  induction ds with
  | nil =>
    simp only [List.nil_append]
    cases r with
    | nil => rfl
    | cons c tl =>
      have hc := hr c tl rfl
      simp [takeDigits, hc]
  | cons d ds ih =>
    have hd : d.isDigit = true := hds d (List.mem_cons_self d ds)
    simp only [List.cons_append, takeDigits, hd, if_true, List.append_eq,
               ih (fun c hc => hds c (List.mem_cons_of_mem d hc))]

lemma matchUnit_found (u : Char) (ds r : List Char) (hne : ds ≠ [])
    (hds : ∀ c ∈ ds, c.isDigit = true) (hu : u.isDigit = false) :
    matchUnit u (ds ++ u :: r) = (some (digitsVal ds), r) := by
  have ht : takeDigits (ds ++ u :: r) = (ds, u :: r) :=
    takeDigits_append ds (u :: r) hds (fun c tl h => by cases h; exact hu)
  simp only [matchUnit, ht]
  simp [hne]

lemma matchUnit_skip (u : Char) (l : List Char) (h : skipShape u l) :
    matchUnit u l = (none, l) := by
  rcases h with rfl | ⟨ds, c, tl, rfl, hds, hcd, hcu⟩
  · rfl
  · have ht : takeDigits (ds ++ c :: tl) = (ds, c :: tl) :=
      takeDigits_append ds (c :: tl) hds (fun x t hx => by cases hx; exact hcd)
    simp only [matchUnit, ht]
    simp [hcu]

lemma skipShape_nil (u : Char) : skipShape u [] := Or.inl rfl

lemma skipShape_durField_append (u v : Char) (fld : Option (List Char)) (l : List Char)
    (hf : ∀ ds, fld = some ds → ds ≠ [] ∧ ∀ c ∈ ds, c.isDigit = true)
    (hv : v.isDigit = false) (hvu : v ≠ u) (hl : skipShape u l) :
    skipShape u (durField fld v ++ l) := by
  cases fld with
  | none => simpa [durField] using hl
  | some ds =>
    exact Or.inr ⟨ds, v, l, by simp [durField, List.append_assoc], (hf ds rfl).2, hv, hvu⟩

lemma matchUnit_field (u : Char) (fld : Option (List Char)) (tail : List Char)
    (hu : u.isDigit = false)
    (hf : ∀ ds, fld = some ds → ds ≠ [] ∧ ∀ c ∈ ds, c.isDigit = true)
    (ht : skipShape u tail) :
    matchUnit u (durField fld u ++ tail) = (fld.map digitsVal, tail) := by
  cases fld with
  | none => simpa [durField] using matchUnit_skip u tail ht
  | some ds =>
    have hds := hf ds rfl
    rw [(by simp [durField, List.append_assoc] :
          durField (some ds) u ++ tail = ds ++ u :: tail),
        matchUnit_found u ds tail hds.1 hds.2 hu]
    rfl

lemma parse_str_pt (l : List Char) :
    parse_duration_to_seconds (PyValue.str ⟨'P' :: 'T' :: l⟩) =
      some ((matchUnit 'H' l).1.getD 0 * 3600 +
            (matchUnit 'M' (matchUnit 'H' l).2).1.getD 0 * 60 +
            (matchUnit 'S' (matchUnit 'M' (matchUnit 'H' l).2).2).1.getD 0) := by
  have hne : (⟨'P' :: 'T' :: l⟩ : String) ≠ "" := by
    intro e
    have h2 := congrArg String.data e
    rw [show String.data ⟨'P' :: 'T' :: l⟩ = 'P' :: 'T' :: l from rfl,
        show ("" : String).data = ([] : List Char) from rfl] at h2
    exact absurd h2 (by simp)
  simp only [parse_duration_to_seconds]
  rw [if_neg hne]

/-- C7: every well-formed `PT[nH][nM][nS]` string parses to
`3600·h + 60·m + s`, absent fields read as 0 (so the empty duration `"PT"`
parses to `some 0`, a value distinct from the absence marker). -/
theorem parse_duration_well_formed (hd md sd : Option (List Char))
    (hh : ∀ ds, hd = some ds → ds ≠ [] ∧ ∀ c ∈ ds, c.isDigit = true)
    (hm : ∀ ds, md = some ds → ds ≠ [] ∧ ∀ c ∈ ds, c.isDigit = true)
    (hs : ∀ ds, sd = some ds → ds ≠ [] ∧ ∀ c ∈ ds, c.isDigit = true) :
    parse_duration_to_seconds (PyValue.str (durationString hd md sd)) =
      some (3600 * fieldVal hd + 60 * fieldVal md + fieldVal sd) := by
  have hSkipM : skipShape 'M' (durField sd 'S') := by
    simpa using skipShape_durField_append 'M' 'S' sd [] hs (by decide) (by decide)
      (skipShape_nil 'M')
  have hSkipH : skipShape 'H' (durField md 'M' ++ durField sd 'S') := by
    refine skipShape_durField_append 'H' 'M' md _ hm (by decide) (by decide) ?_
    simpa using skipShape_durField_append 'H' 'S' sd [] hs (by decide) (by decide)
      (skipShape_nil 'H')
  have eH : matchUnit 'H' (durField hd 'H' ++ (durField md 'M' ++ durField sd 'S')) =
      (hd.map digitsVal, durField md 'M' ++ durField sd 'S') :=
    matchUnit_field 'H' hd _ (by decide) hh hSkipH
  have eM : matchUnit 'M' (durField md 'M' ++ durField sd 'S') =
      (md.map digitsVal, durField sd 'S') :=
    matchUnit_field 'M' md _ (by decide) hm hSkipM
  have eS : matchUnit 'S' (durField sd 'S') = (sd.map digitsVal, []) := by
    simpa using matchUnit_field 'S' sd [] (by decide) hs (skipShape_nil 'S')
  rw [show durationString hd md sd =
        ⟨'P' :: 'T' :: (durField hd 'H' ++ durField md 'M' ++ durField sd 'S')⟩ from rfl,
      parse_str_pt, List.append_assoc, eH]
  simp only [eM, eS]
  cases hd <;> cases md <;> cases sd <;> simp [fieldVal] <;> ring

/-- Witness for C7 at the spec's concrete examples: "PT45S"→45,
"PT1M12S"→72, "PT1H3M"→3780, "PT0S"→0, "PT"→0. -/
theorem parse_duration_well_formed_witness :
    parse_duration_to_seconds (PyValue.str "PT45S") = some 45 ∧
    parse_duration_to_seconds (PyValue.str "PT1M12S") = some 72 ∧
    parse_duration_to_seconds (PyValue.str "PT1H3M") = some 3780 ∧
    parse_duration_to_seconds (PyValue.str "PT0S") = some 0 ∧
    parse_duration_to_seconds (PyValue.str "PT") = some 0 := by
  refine ⟨?_, ?_, ?_, ?_, ?_⟩
  · exact parse_duration_well_formed none none (some ['4', '5'])
      (fun ds h => nomatch h) (fun ds h => nomatch h) (fun ds h => by cases h; decide)
  · exact parse_duration_well_formed none (some ['1']) (some ['1', '2'])
      (fun ds h => nomatch h) (fun ds h => by cases h; decide) (fun ds h => by cases h; decide)
  · exact parse_duration_well_formed (some ['1']) (some ['3']) none
      (fun ds h => by cases h; decide) (fun ds h => by cases h; decide) (fun ds h => nomatch h)
  · exact parse_duration_well_formed none none (some ['0'])
      (fun ds h => nomatch h) (fun ds h => nomatch h) (fun ds h => by cases h; decide)
  · exact parse_duration_well_formed none none none
      (fun ds h => nomatch h) (fun ds h => nomatch h) (fun ds h => nomatch h)

/-- C1: over a response sequence in which every page is successful with at
least one item, every page except the last carries a (truthy) continuation
cursor and the last does not, both pagination loops return the concatenation,
in page order, of the records extracted from each page, with exactly one
fetch per page. -/
theorem paginated_collection_collects_all
    (video_id uploads_playlist_id channel_label channel_handle key : String)
    (cfront : List CommentsPage) (clast : CommentsPage)
    (hcf : ∀ p ∈ cfront, (p.status_code = 200 ∧ p.hasError = false ∧ p.items ≠ []) ∧
      tokenPresent p.nextPageToken = true)
    (hc1 : clast.status_code = 200) (hc2 : clast.hasError = false) (hc3 : clast.items ≠ [])
    (hc4 : tokenPresent clast.nextPageToken = false)
    (vfront : List PlaylistPage) (vlast : PlaylistPage)
    (hvf : ∀ p ∈ vfront, (p.status_code = 200 ∧ p.items ≠ []) ∧
      tokenPresent p.nextPageToken = true)
    (hv1 : vlast.status_code = 200) (hv3 : vlast.items ≠ [])
    (hv4 : tokenPresent vlast.nextPageToken = false) :
    fetch_all_comments video_id (some key) (cfront ++ [clast]) =
      .ok (joinAll ((cfront ++ [clast]).map fun p =>
             p.items.map (extractCommentRecord video_id)),
           (cfront ++ [clast]).length) ∧
    get_videos_from_uploads_playlist uploads_playlist_id channel_label channel_handle
        (some key) (vfront ++ [vlast]) =
      .ok (joinAll ((vfront ++ [vlast]).map fun p =>
             p.items.filterMap (extractVideoSummary channel_label channel_handle)),
           (vfront ++ [vlast]).length) := by
  constructor
  · simp only [fetch_all_comments]
    rw [commentsLoop_run video_id cfront clast hcf hc1 hc2 hc3 hc4 [] 0]
    simp [List.length_append]
  · simp only [get_videos_from_uploads_playlist]
    rw [videosLoop_run channel_label channel_handle vfront vlast hvf hv1 hv3 hv4 [] 0]
    simp [List.length_append]

/-- Witness for C1 at the spec's two-page mock: items x,y then z, cursor on
the first page only; result is the three records in order after exactly two
fetches. -/
theorem paginated_collection_collects_all_witness :
    tokenPresent (some "t1") = true ∧ tokenPresent none = false ∧
    fetch_all_comments "v" (some "k")
        [⟨200, false, [⟨some "cx", some "x", some 1, some "px"⟩,
                       ⟨some "cy", some "y", some 2, some "py"⟩], some "t1"⟩,
         ⟨200, false, [⟨some "cz", some "z", some 3, some "pz"⟩], none⟩] =
      .ok ([⟨"v", some "cx", some "x", some 1, some "px"⟩,
            ⟨"v", some "cy", some "y", some 2, some "py"⟩,
            ⟨"v", some "cz", some "z", some 3, some "pz"⟩], 2) := by
  have h := (paginated_collection_collects_all "v" "pl" "L" "H" "k"
    [⟨200, false, [⟨some "cx", some "x", some 1, some "px"⟩,
                   ⟨some "cy", some "y", some 2, some "py"⟩], some "t1"⟩]
    ⟨200, false, [⟨some "cz", some "z", some 3, some "pz"⟩], none⟩
    (by decide) (by decide) (by decide) (by decide) (by decide)
    [⟨200, [⟨some "w1", some "t1", some "d1"⟩], some "t1"⟩]
    ⟨200, [⟨some "w2", some "t2", some "d2"⟩], none⟩
    (by decide) (by decide) (by decide) (by decide)).1
  exact ⟨rfl, rfl, h.trans rfl⟩

/-- C2: when page k of a pagination carries a non-success status or (for the
comments loop) a body-level error marker, the loop stops after exactly k
fetches, never touches the later prepared responses, and returns the records
of the earlier pages as a normal (non-raised) result. -/
theorem paginated_collection_stops_on_error
    (video_id uploads_playlist_id channel_label channel_handle key : String)
    (cfront : List CommentsPage) (cbad : CommentsPage) (crest : List CommentsPage)
    (hcf : ∀ p ∈ cfront, (p.status_code = 200 ∧ p.hasError = false ∧ p.items ≠ []) ∧
      tokenPresent p.nextPageToken = true)
    (hcb : cbad.status_code ≠ 200 ∨ cbad.hasError = true)
    (vfront : List PlaylistPage) (vbad : PlaylistPage) (vrest : List PlaylistPage)
    (hvf : ∀ p ∈ vfront, (p.status_code = 200 ∧ p.items ≠ []) ∧
      tokenPresent p.nextPageToken = true)
    (hvb : vbad.status_code ≠ 200) :
    fetch_all_comments video_id (some key) (cfront ++ cbad :: crest) =
      .ok (joinAll (cfront.map fun p => p.items.map (extractCommentRecord video_id)),
           cfront.length + 1) ∧
    get_videos_from_uploads_playlist uploads_playlist_id channel_label channel_handle
        (some key) (vfront ++ vbad :: vrest) =
      .ok (joinAll (vfront.map fun p =>
             p.items.filterMap (extractVideoSummary channel_label channel_handle)),
           vfront.length + 1) := by
  constructor
  · simp only [fetch_all_comments]
    rw [commentsLoop_bad_run video_id cfront cbad crest hcf hcb [] 0]
    simp
  · simp only [get_videos_from_uploads_playlist]
    rw [videosLoop_bad_run channel_label channel_handle vfront vbad vrest hvf hvb [] 0]
    simp

/-- Witness for C2 at the spec's mock: an error marker on the first page
yields the empty result after exactly 1 fetch, with a further prepared page
left untouched. -/
theorem paginated_collection_stops_on_error_witness :
    (⟨200, true, [⟨some "c", some "x", some 1, some "p"⟩], some "t1"⟩ :
        CommentsPage).hasError = true ∧
    fetch_all_comments "v" (some "k")
        [⟨200, true, [⟨some "c", some "x", some 1, some "p"⟩], some "t1"⟩,
         ⟨200, false, [⟨some "c2", some "y", some 2, some "p2"⟩], none⟩] =
      .ok ([], 1) ∧
    get_videos_from_uploads_playlist "pl" "L" "H" (some "k")
        [⟨500, [⟨some "w", some "t", some "d"⟩], some "t1"⟩,
         ⟨200, [⟨some "w2", some "t2", some "d2"⟩], none⟩] =
      .ok ([], 1) := by
  have h := paginated_collection_stops_on_error "v" "pl" "L" "H" "k"
    [] ⟨200, true, [⟨some "c", some "x", some 1, some "p"⟩], some "t1"⟩
    [⟨200, false, [⟨some "c2", some "y", some 2, some "p2"⟩], none⟩]
    (by simp) (Or.inr rfl)
    [] ⟨500, [⟨some "w", some "t", some "d"⟩], some "t1"⟩
    [⟨200, [⟨some "w2", some "t2", some "d2"⟩], none⟩]
    (by simp) (by decide)
  exact ⟨rfl, h.1.trans rfl, h.2.trans rfl⟩

/-- C4: a non-success HTTP status is fatal for the one-shot batch call —
`fetch_video_statistics_batch` raises to its caller and returns no mapping —
while the same status on either paginated listing call only terminates the
loop early with the partial results accumulated so far. -/
theorem transport_error_fatal_only_for_batch
    (video_ids : List String) (key : String) (resp : BatchResponse)
    (hids : video_ids ≠ []) (hstatus : resp.status_code ≠ 200)
    (video_id uploads_playlist_id channel_label channel_handle : String)
    (cfront : List CommentsPage) (cbad : CommentsPage) (crest : List CommentsPage)
    (hcf : ∀ p ∈ cfront, (p.status_code = 200 ∧ p.hasError = false ∧ p.items ≠ []) ∧
      tokenPresent p.nextPageToken = true)
    (hcb : cbad.status_code ≠ 200)
    (vfront : List PlaylistPage) (vbad : PlaylistPage) (vrest : List PlaylistPage)
    (hvf : ∀ p ∈ vfront, (p.status_code = 200 ∧ p.items ≠ []) ∧
      tokenPresent p.nextPageToken = true)
    (hvb : vbad.status_code ≠ 200) :
    fetch_video_statistics_batch video_ids (some key) resp =
      .error ("HTTP " ++ toString resp.status_code ++
              " while fetching video statistics | " ++ resp.text) ∧
    fetch_all_comments video_id (some key) (cfront ++ cbad :: crest) =
      .ok (joinAll (cfront.map fun p => p.items.map (extractCommentRecord video_id)),
           cfront.length + 1) ∧
    get_videos_from_uploads_playlist uploads_playlist_id channel_label channel_handle
        (some key) (vfront ++ vbad :: vrest) =
      .ok (joinAll (vfront.map fun p =>
             p.items.filterMap (extractVideoSummary channel_label channel_handle)),
           vfront.length + 1) := by
  refine ⟨?_, ?_, ?_⟩
  · simp [fetch_video_statistics_batch, hids, hstatus]
  · simp only [fetch_all_comments]
    rw [commentsLoop_bad_run video_id cfront cbad crest hcf (Or.inl hcb) [] 0]
    simp
  · simp only [get_videos_from_uploads_playlist]
    rw [videosLoop_bad_run channel_label channel_handle vfront vbad vrest hvf hvb [] 0]
    simp

/-- Witness for C4: HTTP 403 makes the batch call raise, while the listing
calls return partial results after one earlier successful page each. -/
theorem transport_error_fatal_only_for_batch_witness :
    (["v1"] : List String) ≠ [] ∧ (403 : Nat) ≠ 200 ∧
    fetch_video_statistics_batch ["v1"] (some "k") ⟨403, "quota", []⟩ =
      .error "HTTP 403 while fetching video statistics | quota" ∧
    fetch_all_comments "v" (some "k")
        [⟨200, false, [⟨some "c", some "x", some 1, some "p"⟩], some "t1"⟩,
         ⟨403, false, [], none⟩] =
      .ok ([⟨"v", some "c", some "x", some 1, some "p"⟩], 2) ∧
    get_videos_from_uploads_playlist "pl" "L" "H" (some "k")
        [⟨200, [⟨some "w", some "t", some "d"⟩], some "t1"⟩, ⟨403, [], none⟩] =
      .ok ([⟨"L", "H", "w", some "t", some "d"⟩], 2) := by
  have h := transport_error_fatal_only_for_batch ["v1"] "k" ⟨403, "quota", []⟩
    (by decide) (by decide) "v" "pl" "L" "H"
    [⟨200, false, [⟨some "c", some "x", some 1, some "p"⟩], some "t1"⟩]
    ⟨403, false, [], none⟩ [] (by decide) (by decide)
    [⟨200, [⟨some "w", some "t", some "d"⟩], some "t1"⟩] ⟨403, [], none⟩ []
    (by decide) (by decide)
  exact ⟨by decide, by decide, h.1.trans rfl, h.2.1.trans rfl, h.2.2.trans rfl⟩

/-- C3: an uploads-playlist item whose `videoId` is missing (or falsy) is
silently skipped, and continuation is governed by the raw page content: a
successful page with a truthy cursor whose items are all skipped still leads
the loop to fetch the next page (the fetch count is one more than the run
over the remaining responses, and at least 2 when a next page exists). -/
theorem skipped_items_do_not_stop_pagination
    (uploads_playlist_id channel_label channel_handle key : String)
    (item : PlaylistItem) (hitem : item.videoId = none ∨ item.videoId = some "")
    (p1 : PlaylistPage) (rest : List PlaylistPage)
    (h200 : p1.status_code = 200) (hne : p1.items ≠ [])
    (hall : ∀ it ∈ p1.items, it.videoId = none ∨ it.videoId = some "")
    (htok : tokenPresent p1.nextPageToken = true) :
    extractVideoSummary channel_label channel_handle item = none ∧
    get_videos_from_uploads_playlist uploads_playlist_id channel_label channel_handle
        (some key) (p1 :: rest) =
      .ok ((videosLoop channel_label channel_handle rest [] 0).1,
           1 + (videosLoop channel_label channel_handle rest [] 0).2) ∧
    (rest ≠ [] → 1 ≤ (videosLoop channel_label channel_handle rest [] 0).2) := by
  refine ⟨?_, ?_, ?_⟩
  · rcases hitem with h | h <;> simp [extractVideoSummary, h]
  · have hfm : p1.items.filterMap (extractVideoSummary channel_label channel_handle) = [] := by
      rw [List.filterMap_eq_nil_iff]
      intro it hit
      rcases hall it hit with h | h <;> simp [extractVideoSummary, h]
    simp only [get_videos_from_uploads_playlist]
    rw [videosLoop_cons_ok channel_label channel_handle p1 rest [] 0 h200 hne htok, hfm,
        videosLoop_shift channel_label channel_handle rest ([] ++ []) (0 + 1)]
    simp
  · intro hrest
    obtain ⟨p2, r2, rfl⟩ := List.exists_cons_of_ne_nil hrest
    exact videosLoop_fetch_pos channel_label channel_handle p2 r2

/-- Witness for C3: a page whose two items both lack a usable `videoId`, with
a cursor, still triggers the fetch of the following page; result is that
page's one record after 2 fetches. -/
theorem skipped_items_do_not_stop_pagination_witness :
    tokenPresent (some "t1") = true ∧
    extractVideoSummary "L" "H" ⟨none, some "t", some "d"⟩ = none ∧
    get_videos_from_uploads_playlist "pl" "L" "H" (some "k")
        [⟨200, [⟨none, some "t", some "d"⟩, ⟨some "", some "t2", some "d2"⟩], some "t1"⟩,
         ⟨200, [⟨some "w", some "tw", some "dw"⟩], none⟩] =
      .ok ([⟨"L", "H", "w", some "tw", some "dw"⟩], 2) := by
  have h := skipped_items_do_not_stop_pagination "pl" "L" "H" "k"
    ⟨none, some "t", some "d"⟩ (Or.inl rfl)
    ⟨200, [⟨none, some "t", some "d"⟩, ⟨some "", some "t2", some "d2"⟩], some "t1"⟩
    [⟨200, [⟨some "w", some "tw", some "dw"⟩], none⟩]
    (by decide) (by decide) (by decide) (by decide)
  exact ⟨rfl, h.1, h.2.1.trans rfl⟩

end DAJobs
